import Mathlib

/-
Shallow embedding of the telebot repository (Go): the generic RPC transport
(caller.go, `Caller.do` / `NewCaller`) and the update-streaming poller
(`Bot.PollUpdates`, `Bot.GetUpdates`, `NewBot`) together with the update data
model (`Update`, `Update.Type`).

Go `int64` values are modelled as `Int`; the one place the source performs
`int64` arithmetic (`req.Offset = upd.ID + 1` in `Bot.PollUpdates`) goes
through `wrap64`, Go's two's-complement wrap-around semantics. Go `int`
values that are never operated on arithmetically (`Timeout`, `Limit`,
HTTP status codes) are modelled as plain `Int`.

External effects (JSON marshalling, the HTTP round trip, JSON decoding) are
modelled as explicit oracles in a `Wire` record; each fallible Go operation
becomes an `Except`-valued oracle. `Caller.do` additionally returns the list
of HTTP requests it handed to the HTTP client, so that theorems can speak
about which requests a call issues.
-/

namespace Telebot

/-- Two's-complement wrap-around of an integer into the `int64` range,
matching Go's defined signed-overflow behaviour. -/
def wrap64 (x : Int) : Int := (x + 2 ^ 63) % 2 ^ 64 - 2 ^ 63

/-- The payload record shapes (`Message`, queries, …) are inert data
contracts; per the design scope only their presence/absence on an `Update`
and their identity matter, so each is modelled by its identifier field. -/
structure Message where
  ID : Int
  deriving DecidableEq

/-- Inline-query payload, modelled by its identifier field. -/
structure InlineQuery where
  ID : String
  deriving DecidableEq

/-- Chosen-inline-result payload, modelled by its identifier field. -/
structure ChosenInlineResult where
  ID : String
  deriving DecidableEq

/-- Callback-query payload, modelled by its identifier field. -/
structure CallbackQuery where
  ID : String
  deriving DecidableEq

/-- Go: `type UpdateType string`. -/
def UpdateType := String
deriving instance DecidableEq for UpdateType

/-- Go constant `MessageUpdate`. -/
def MessageUpdate : UpdateType := "message"

/-- Go constant `EditedMessageUpdate`. -/
def EditedMessageUpdate : UpdateType := "edited_message"

/-- Go constant `ChannelPostUpdate`. -/
def ChannelPostUpdate : UpdateType := "channel_post"

/-- Go constant `EditedChannelPostUpdate`. -/
def EditedChannelPostUpdate : UpdateType := "edited_channel_post"

/-- Go constant `InlineQueryUpdate`. -/
def InlineQueryUpdate : UpdateType := "inline_query"

/-- Go constant `ChosenInlineResultUpdate`. -/
def ChosenInlineResultUpdate : UpdateType := "chosen_inline_result"

/-- Go constant `CallbackQueryUpdate`. -/
def CallbackQueryUpdate : UpdateType := "callback_query"

/-- Go struct `Update`: a 64-bit identifier and seven optional kind slots
(Go nil-able pointers become `Option`). -/
structure Update where
  ID : Int
  Message : Option Telebot.Message
  EditedMessage : Option Telebot.Message
  ChannelPost : Option Telebot.Message
  EditedChannelPost : Option Telebot.Message
  InlineQuery : Option Telebot.InlineQuery
  ChosenInlineResult : Option Telebot.ChosenInlineResult
  CallbackQuery : Option Telebot.CallbackQuery
  deriving DecidableEq

/-- Go method `Update.Type` (renamed: `Type` is a Lean keyword): the
if-else chain over the seven kind slots, returning `""` at the end. -/
def Update.getType (u : Update) : UpdateType :=
  if u.Message.isSome then MessageUpdate
  else if u.EditedMessage.isSome then EditedMessageUpdate
  else if u.ChannelPost.isSome then ChannelPostUpdate
  else if u.EditedChannelPost.isSome then EditedChannelPostUpdate
  else if u.InlineQuery.isSome then InlineQueryUpdate
  else if u.ChosenInlineResult.isSome then ChosenInlineResultUpdate
  else if u.CallbackQuery.isSome then CallbackQueryUpdate
  else ""

/-- Go struct `User` (part_001). -/
structure User where
  ID : Int
  IsBot : Bool
  FirstName : String
  LastName : String
  Username : String
  LanguageCode : String
  deriving DecidableEq

/-- The zero value of Go's `User` struct. -/
def User.zero : User := ⟨0, false, "", "", "", ""⟩

/-- Go struct `Error` (caller.go): the remote-declared API error, carrying
the HTTP status code and a description. -/
structure Error where
  HTTPCode : Int
  Description : String
  deriving DecidableEq

/-- Go struct `outerResponse` (caller.go): the response envelope. The raw
`json.RawMessage` result is kept as an uninterpreted string. -/
structure outerResponse where
  Ok : Bool
  Result : String
  Description : String
  deriving DecidableEq

/-- The observable part of a Go `*http.Request` built by `Caller.do`:
method, URL, optional body, and the optional `Content-Type` header. -/
structure HTTPRequest where
  Method : String
  URL : String
  Body : Option String
  ContentType : Option String
  deriving DecidableEq

/-- The part of a Go `*http.Response` read by `Caller.do`: the status code
and the response body. -/
structure HTTPResponse where
  StatusCode : Int
  Body : String
  deriving DecidableEq

/-- The ways `Caller.do` can return a non-nil Go `error`, tagged by the
fallible step that produced it: `json.Marshal` of the request,
`client.Do`, `json.Decoder.Decode` of the envelope, the remote-declared
`*Error`, or `json.Unmarshal` of the inner result. -/
inductive CallError where
  | marshalErr (e : String)
  | transportErr (e : String)
  | outerDecodeErr (e : String)
  | apiErr (e : Error)
  | unmarshalErr (e : String)
  deriving DecidableEq

/-- The error component of an `Except`, as an `Option`. -/
def exceptErr {ε α : Type} : Except ε α → Option ε
  | .error e => some e
  | .ok _ => none

/-- Oracles for the external effects `Caller.do` composes: JSON
marshalling of the request, one HTTP round trip, JSON decoding of the
envelope, and JSON unmarshalling of the raw result into the caller's
response shape. Each fallible Go call becomes an `Except`-valued oracle. -/
structure Wire (Req Resp : Type) where
  marshal : Req → Except String String
  httpDo : HTTPRequest → Except String HTTPResponse
  decodeOuter : String → Except String outerResponse
  unmarshal : String → Except String Resp

/-- Replace the inner-result unmarshalling oracle, keeping the rest of the
wire unchanged; used to state that a code path never interprets the raw
result payload. -/
def Wire.withUnmarshal {Req Resp : Type} (w : Wire Req Resp)
    (f : String → Except String Resp) : Wire Req Resp :=
  { w with unmarshal := f }

/-- Go struct `Caller` (caller.go). The two `http.Client` values are
modelled by their timeout budgets (seconds); `baseURL` is the Go field
`prefix` (renamed: Lean keyword). -/
structure Caller where
  baseURL : String
  clientTimeoutSeconds : Int
  pollClientTimeoutSeconds : Int
  deriving DecidableEq

/-- The result of marshalling the optional request payload: `none` when
the Go `request` argument is nil (no body), the marshalled JSON otherwise. -/
def marshalBody {Req : Type} (marshal : Req → Except String String) :
    Option Req → Except String (Option String)
  | none => .ok none
  | some r => (marshal r).map some

/-- The HTTP request `Caller.do` builds (caller.go lines 39-65): method
POST with the marshalled body and a `Content-Type: application/json`
header when a request payload is present, GET with no body and no header
otherwise; the URL is the caller's URL base followed by the method name. -/
def Caller.httpRequestFor {Req : Type} (c : Caller) (name : String)
    (request : Option Req) (body : Option String) : HTTPRequest :=
  { Method := if request.isSome then "POST" else "GET"
    URL := c.baseURL ++ name
    Body := body
    ContentType := if request.isSome then some "application/json" else none }

/-- Go `Caller.do` (caller.go, renamed: `do` is a Lean keyword): marshal
the optional request, build and issue the HTTP request, decode the
envelope, turn `ok == false` into an `*Error` (substituting the
description `"undefined error"` when the envelope's description is
empty), and unmarshal the raw result exactly when a response shape was
requested (`wantResponse` models a non-nil Go `response` argument).
Besides the Go return value it returns the list of HTTP requests handed
to the HTTP client. Go's `http.NewRequest` error path is not modelled: on
this code path it can only fail on an unparsable URL, which is folded
into the `httpDo` oracle's failure case. -/
def Caller.doCall {Req Resp : Type} (c : Caller) (w : Wire Req Resp)
    (name : String) (request : Option Req) (wantResponse : Bool) :
    Except CallError (Option Resp) × List HTTPRequest :=
  match marshalBody w.marshal request with
  | .error e => (.error (.marshalErr e), [])
  | .ok body =>
    match w.httpDo (c.httpRequestFor name request body) with
    | .error e => (.error (.transportErr e), [c.httpRequestFor name request body])
    | .ok res =>
      match w.decodeOuter res.Body with
      | .error e => (.error (.outerDecodeErr e), [c.httpRequestFor name request body])
      | .ok outer =>
        if !outer.Ok then
          if outer.Description.length = 0 then
            (.error (.apiErr ⟨res.StatusCode, "undefined error"⟩),
             [c.httpRequestFor name request body])
          else
            (.error (.apiErr ⟨res.StatusCode, outer.Description⟩),
             [c.httpRequestFor name request body])
        else if wantResponse then
          match w.unmarshal outer.Result with
          | .error e => (.error (.unmarshalErr e), [c.httpRequestFor name request body])
          | .ok v => (.ok (some v), [c.httpRequestFor name request body])
        else
          (.ok none, [c.httpRequestFor name request body])

/-- Go `NewCaller` (caller.go): URL base `endpoint + token + "/"`, a 10 s
ordinary client and a 5 min long-poll client. -/
def NewCaller (endpoint token : String) : Caller :=
  { baseURL := endpoint ++ token ++ "/"
    clientTimeoutSeconds := 10
    pollClientTimeoutSeconds := 300 }

/-- Go constant `EndpointURL`. -/
def EndpointURL : String := "https://api.telegram.org/bot"

/-- Go constant `DefaultBackoffPeriod` (`5 * time.Second`), as
`time.Duration` nanoseconds. -/
def DefaultBackoffPeriod : Int := 5 * 1000000000

/-- Go constant `DefaultPollTimeout` (seconds). -/
def DefaultPollTimeout : Int := 60

/-- Go struct `Bot`: the verified identity (`*User`, nil-able), the
backoff period (`time.Duration` nanoseconds) and the low-level caller. -/
structure Bot where
  Self : Option User
  BackoffPeriod : Int
  caller : Caller
  deriving DecidableEq

/-- Go struct `GetUpdates`: the poll request mutated in place by
`Bot.PollUpdates`. -/
structure GetUpdates where
  Offset : Int
  Limit : Int
  Timeout : Int
  AllowedUpdates : List UpdateType
  deriving DecidableEq

/-- The outcome of one `b.GetUpdates(req)` long-poll call, supplied to the
poller loop by the environment: a Go error, or a batch of updates. -/
inductive PollResult where
  | failure (e : String)
  | success (upds : List Update)
  deriving DecidableEq

/-- The batch carried by a poll outcome (empty for a failed call). -/
def PollResult.updates : PollResult → List Update
  | .failure _ => []
  | .success upds => upds

/-- Observable actions of one polling session, in program order: a
long-poll call being issued (recording the `Offset` and `Timeout` fields
the request carries at that moment), an update sent on the update
channel, an error sent on the error channel, the backoff sleep
(nanoseconds), and the closing of both output channels. -/
inductive Event where
  | callIssued (offset : Int) (timeout : Int)
  | emitUpdate (u : Update)
  | emitError (e : String)
  | sleep (d : Int)
  | closeChannels
  deriving DecidableEq

/-- Whether an event is the closing of the output channels. -/
def Event.isClose : Event → Bool
  | .closeChannels => true
  | _ => false

/-- The batches of the successful long-poll calls among a session's
outcomes, in order. -/
def successBatches : List PollResult → List (List Update)
  | [] => []
  | .failure _ :: rs => successBatches rs
  | .success upds :: rs => upds :: successBatches rs

/-- The updates an event trace emits on the update channel, in order. -/
def emittedUpdates (evs : List Event) : List Update :=
  evs.filterMap fun e =>
    match e with
    | .emitUpdate u => some u
    | _ => none

/-- The `Timeout` field carried by a call-issued event. -/
def timeoutOfCall : Event → Option Int
  | .callIssued _ t => some t
  | _ => none

/-- One step of the per-update offset mutation inside the success branch
of `Bot.PollUpdates` (part_000 lines 88-91): `if req.Offset <= upd.ID {
req.Offset = upd.ID + 1 }`, with Go `int64` addition wrapping. -/
def offsetStep (offset : Int) (u : Update) : Int :=
  if offset ≤ u.ID then wrap64 (u.ID + 1) else offset

/-- The offset after the success branch iterates over a whole batch. -/
def processBatch : Int → List Update → Int
  | offset, [] => offset
  | offset, u :: rest => processBatch (offsetStep offset u) rest

/-- One non-cancelled iteration of the `Bot.PollUpdates` loop body
(part_000 lines 75-93): issue the long-poll call; on error, send the
error on the error channel and sleep for the backoff period, leaving the
request untouched; on success, send each update on the update channel in
order and advance the request's `Offset` per update. Returns the request
as left for the next iteration and the iteration's event trace. -/
def pollIteration (b : Bot) (req : GetUpdates) (r : PollResult) :
    GetUpdates × List Event :=
  match r with
  | .failure e =>
    (req, [.callIssued req.Offset req.Timeout, .emitError e,
           .sleep b.BackoffPeriod])
  | .success upds =>
    ({ req with Offset := processBatch req.Offset upds },
     .callIssued req.Offset req.Timeout :: upds.map Event.emitUpdate)

/-- The `Bot.PollUpdates` goroutine loop (part_000 lines 63-95). The
cancellation context is modelled by the length of `inputs`: the `select`
at the top of each iteration takes the `default` branch and performs one
long-poll call per element of `inputs`, and observes `ctx.Done()` once
`inputs` is exhausted, whereupon it closes both channels and returns.
Returns the final request value and the session's event trace. -/
def pollRun (b : Bot) (req : GetUpdates) : List PollResult → GetUpdates × List Event
  | [] => (req, [.closeChannels])
  | r :: rs =>
    let step := pollIteration b req r
    let rest := pollRun b step.1 rs
    (rest.1, step.2 ++ rest.2)

/-- The timeout normalization `Bot.PollUpdates` performs before starting
the goroutine (part_000 lines 56-59): a non-positive `Timeout` is set to
`DefaultPollTimeout`. -/
def normalizePollTimeout (req : GetUpdates) : GetUpdates :=
  if req.Timeout ≤ 0 then { req with Timeout := DefaultPollTimeout } else req

/-- Go `Bot.PollUpdates`: normalize the request's timeout, then run the
polling loop. The nil-context fill-in has no observable effect in this
model. -/
def Bot.PollUpdates (b : Bot) (req : GetUpdates) (inputs : List PollResult) :
    GetUpdates × List Event :=
  pollRun b (normalizePollTimeout req) inputs

/-- Go `Bot.GetMe` (part_000 lines 132-136): `caller.Call("getMe", nil,
&me)`; returns the decoded user (the Go zero value when the call failed)
and the call's error, plus the issued HTTP requests. -/
def Bot.GetMe (b : Bot) (w : Wire Unit User) :
    (User × Option CallError) × List HTTPRequest :=
  match b.caller.doCall w "getMe" none true with
  | (.ok v, tr) => ((v.getD User.zero, none), tr)
  | (.error e, tr) => ((User.zero, some e), tr)

/-- Go `NewBot` (part_000 lines 395-405): build the bot with the default
backoff period and a caller for `EndpointURL`, then test the connection
with `GetMe`, storing the result in `Self` and returning the bot together
with `GetMe`'s error. -/
def NewBot (token : String) (w : Wire Unit User) :
    (Bot × Option CallError) × List HTTPRequest :=
  let bot : Bot :=
    { Self := none
      BackoffPeriod := DefaultBackoffPeriod
      caller := NewCaller EndpointURL token }
  let r := bot.GetMe w
  (({ bot with Self := some r.1.1 }, r.1.2), r.2)

/-- The ordered list of an update's seven kind slots — populated flag
paired with the kind tag — in the order `Update.Type` checks them. This
definition follows the specified behaviour (first populated slot wins,
empty string when none is populated) and is compared against the
source-derived `Update.getType` in the corresponding theorem. -/
def kindSlots (u : Update) : List (Bool × UpdateType) :=
  [(u.Message.isSome, MessageUpdate),
   (u.EditedMessage.isSome, EditedMessageUpdate),
   (u.ChannelPost.isSome, ChannelPostUpdate),
   (u.EditedChannelPost.isSome, EditedChannelPostUpdate),
   (u.InlineQuery.isSome, InlineQueryUpdate),
   (u.ChosenInlineResult.isSome, ChosenInlineResultUpdate),
   (u.CallbackQuery.isSome, CallbackQueryUpdate)]

/-- A concrete update with identifier 5 carrying a message payload, used
to evaluate the theorems on the spec's worked scenario. -/
def u5 : Update :=
  { ID := 5, Message := some { ID := 1 }, EditedMessage := none,
    ChannelPost := none, EditedChannelPost := none, InlineQuery := none,
    ChosenInlineResult := none, CallbackQuery := none }

/-- A concrete update with identifier 7. -/
def u7 : Update := { u5 with ID := 7 }

/-- A concrete update carrying the largest `int64` identifier, the input
on which the `Offset` increment wraps around. -/
def uMax : Update := { u5 with ID := 2 ^ 63 - 1 }

/-- A concrete bot with the default backoff period. -/
def bot0 : Bot :=
  { Self := none, BackoffPeriod := DefaultBackoffPeriod,
    caller := NewCaller EndpointURL "TOKEN" }

/-- A concrete poll request with cursor 0 and an explicit 60 s timeout. -/
def req0 : GetUpdates :=
  { Offset := 0, Limit := 0, Timeout := 60, AllowedUpdates := [] }

/-- A concrete wire whose remote end declares failure with an empty
description on HTTP status 404. -/
def w0 : Wire Unit Unit :=
  { marshal := fun _ => .ok "null"
    httpDo := fun _ => .ok { StatusCode := 404, Body := "B" }
    decodeOuter := fun _ => .ok { Ok := false, Result := "r", Description := "" }
    unmarshal := fun _ => .error "unused" }

/-- An integer already inside the `int64` range is unchanged by the
wrap-around. -/
theorem wrap64_eq_self (x : Int) (h1 : -(2 ^ 63) ≤ x) (h2 : x < 2 ^ 63) :
    wrap64 x = x := by
  unfold wrap64
  rw [Int.emod_eq_of_lt (by omega) (by omega)]
  omega

/-- As long as the identifier increment cannot overflow, one offset step
is exactly a join with `ID + 1`. -/
theorem offsetStep_eq_max (c : Int) (u : Update) (h1 : -(2 ^ 63) ≤ u.ID)
    (h2 : u.ID < 2 ^ 63 - 1) : offsetStep c u = max c (u.ID + 1) := by
  unfold offsetStep
  split
  · rw [wrap64_eq_self (u.ID + 1) (by omega) (by omega)]
    exact (max_eq_right (by omega)).symm
  · exact (max_eq_left (by omega)).symm

/-- Folding the per-update offset step over a batch of non-overflowing
identifiers is a fold of `max` over the incremented identifiers. -/
theorem processBatch_eq_foldl (upds : List Update) : ∀ c : Int,
    (∀ u ∈ upds, -(2 ^ 63) ≤ u.ID ∧ u.ID < 2 ^ 63 - 1) →
    processBatch c upds = (upds.map (fun u => u.ID + 1)).foldl max c := by
  induction upds with
  | nil => intro c _; rfl
  | cons u rest ih =>
    intro c h
    have hu := h u (List.mem_cons_self u rest)
    simp only [processBatch, List.map_cons, List.foldl_cons]
    rw [offsetStep_eq_max c u hu.1 hu.2]
    exact ih (max c (u.ID + 1)) fun v hv => h v (List.mem_cons_of_mem u hv)

/-- A `max`-fold over incremented values is the increment of the plain
`max`-fold, joined with the initial accumulator. -/
theorem foldl_max_map_succ (xs : List Int) : ∀ c x : Int,
    ((x :: xs).map (fun i => i + 1)).foldl max c = max c ((xs.foldl max x) + 1) := by
  induction xs with
  | nil => intro c x; rfl
  | cons y ys ih =>
    intro c x
    simp only [List.map_cons, List.foldl_cons] at *
    rw [ih (max c (x + 1)) y, List.foldl_assoc, ← max_add_add_right, max_assoc]

/-- One offset step never decreases the offset when the identifier
increment cannot overflow. -/
theorem offsetStep_mono (c : Int) (u : Update) (h1 : -(2 ^ 63) ≤ u.ID)
    (h2 : u.ID < 2 ^ 63 - 1) : c ≤ offsetStep c u := by
  rw [offsetStep_eq_max c u h1 h2]
  exact le_max_left _ _

/-- Processing a batch of non-overflowing identifiers never decreases the
offset. -/
theorem processBatch_mono (upds : List Update) : ∀ c : Int,
    (∀ u ∈ upds, -(2 ^ 63) ≤ u.ID ∧ u.ID < 2 ^ 63 - 1) →
    c ≤ processBatch c upds := by
  induction upds with
  | nil => intro c _; exact le_refl c
  | cons u rest ih =>
    intro c h
    have hu := h u (List.mem_cons_self u rest)
    exact le_trans (offsetStep_mono c u hu.1 hu.2)
      (ih (offsetStep c u) fun v hv => h v (List.mem_cons_of_mem u hv))

/-- The request offset left by a whole session is at least the starting
offset, provided no batch carries an identifier whose increment
overflows. -/
theorem pollRun_offset_mono (b : Bot) (inputs : List PollResult) :
    ∀ req : GetUpdates,
    (∀ r ∈ inputs, ∀ u ∈ r.updates, -(2 ^ 63) ≤ u.ID ∧ u.ID < 2 ^ 63 - 1) →
    req.Offset ≤ ((pollRun b req inputs).1).Offset := by
  induction inputs with
  | nil => intro req _; exact le_refl _
  | cons r rs ih =>
    intro req h
    have hrest := fun s hs => h s (List.mem_cons_of_mem r hs)
    cases r with
    | failure e => exact ih req hrest
    | success upds =>
      refine le_trans ?_ (ih _ hrest)
      exact processBatch_mono upds req.Offset
        (h (.success upds) (List.mem_cons_self _ _))

/-- The loop body never touches the request's `Timeout` field. -/
theorem pollIteration_timeout (b : Bot) (req : GetUpdates) (r : PollResult) :
    ((pollIteration b req r).1).Timeout = req.Timeout := by
  cases r <;> rfl

/-- Each iteration issues exactly one call, carrying the request's
current `Timeout`. -/
theorem iteration_timeouts (b : Bot) (req : GetUpdates) (r : PollResult) :
    (pollIteration b req r).2.filterMap timeoutOfCall = [req.Timeout] := by
  cases r with
  | failure e => rfl
  | success upds =>
    simp [pollIteration, List.filterMap_cons, timeoutOfCall, List.filterMap_map,
      Function.comp]

/-- Every call of a session carries the `Timeout` value the session
started with, one call per supplied outcome. -/
theorem pollRun_timeouts (b : Bot) (inputs : List PollResult) :
    ∀ req : GetUpdates,
    (pollRun b req inputs).2.filterMap timeoutOfCall =
      List.replicate inputs.length req.Timeout := by
  induction inputs with
  | nil => intro req; rfl
  | cons r rs ih =>
    intro req
    simp only [pollRun, List.filterMap_append, iteration_timeouts,
      ih (pollIteration b req r).1, pollIteration_timeout, List.length_cons,
      List.replicate_succ]
    rfl

/-- One iteration emits exactly the updates of its outcome's batch, in
batch order. -/
theorem iteration_updates (b : Bot) (req : GetUpdates) (r : PollResult) :
    emittedUpdates (pollIteration b req r).2 = r.updates := by
  cases r with
  | failure e => rfl
  | success upds =>
    simp only [pollIteration, emittedUpdates, List.filterMap_cons,
      PollResult.updates]
    induction upds with
    | nil => rfl
    | cons u rest ih => simpa [List.map_cons, List.filterMap_cons] using ih

/-- A session emits exactly the concatenation of its successful batches. -/
theorem pollRun_updates (b : Bot) (inputs : List PollResult) :
    ∀ req : GetUpdates,
    emittedUpdates (pollRun b req inputs).2 = (successBatches inputs).flatten := by
  induction inputs with
  | nil => intro req; rfl
  | cons r rs ih =>
    intro req
    have hsplit : emittedUpdates (pollRun b req (r :: rs)).2 =
        emittedUpdates (pollIteration b req r).2 ++
          emittedUpdates (pollRun b (pollIteration b req r).1 rs).2 := by
      simp [pollRun, emittedUpdates, List.filterMap_append]
    rw [hsplit, iteration_updates, ih]
    cases r with
    | failure e => simp [successBatches, PollResult.updates]
    | success upds => simp [successBatches, PollResult.updates]

/-- No loop iteration closes the output channels. -/
theorem iteration_no_close (b : Bot) (req : GetUpdates) (r : PollResult) :
    (pollIteration b req r).2.countP Event.isClose = 0 := by
  cases r with
  | failure e => rfl
  | success upds =>
    simp [pollIteration, List.countP_cons, Event.isClose, List.countP_map,
      Function.comp]

/-- A session's trace is some close-free prefix followed by the single
channel-close event. -/
theorem pollRun_close_last (b : Bot) (inputs : List PollResult) :
    ∀ req : GetUpdates,
    ∃ pre, (pollRun b req inputs).2 = pre ++ [Event.closeChannels] ∧
      pre.countP Event.isClose = 0 := by
  induction inputs with
  | nil => intro req; exact ⟨[], rfl, rfl⟩
  | cons r rs ih =>
    intro req
    obtain ⟨pre, hp, hc⟩ := ih (pollIteration b req r).1
    refine ⟨(pollIteration b req r).2 ++ pre, ?_, ?_⟩
    · simp [pollRun, hp]
    · simp [List.countP_append, hc, iteration_no_close]

/-- The result of `Caller.do` once the call has reached a decoded
envelope: the remote-declared failure, the requested decode, or plain
success, depending on the success flag and whether a response shape was
asked for. -/
theorem doCall_of_envelope {Req Resp : Type} (c : Caller) (w : Wire Req Resp)
    (name : String) (request : Option Req) (want : Bool) (body : Option String)
    (res : HTTPResponse) (outer : outerResponse)
    (h1 : marshalBody w.marshal request = .ok body)
    (h2 : w.httpDo (c.httpRequestFor name request body) = .ok res)
    (h3 : w.decodeOuter res.Body = .ok outer) :
    (c.doCall w name request want).1 =
      if !outer.Ok then
        .error (.apiErr ⟨res.StatusCode,
          if outer.Description.length = 0 then "undefined error"
          else outer.Description⟩)
      else if want then
        match w.unmarshal outer.Result with
        | .error e => .error (.unmarshalErr e)
        | .ok v => .ok (some v)
      else .ok none := by
  unfold Caller.doCall
  rw [h1]
  dsimp only
  rw [h2]
  dsimp only
  rw [h3]
  dsimp only
  cases ho : outer.Ok with
  | false => by_cases hl : outer.Description.length = 0 <;> simp [hl]
  | true =>
    cases want with
    | false => simp
    | true => cases w.unmarshal outer.Result <;> simp

/-- The HTTP requests a call issues: none when request marshalling
failed, otherwise exactly the one request built for the call. -/
theorem doCall_trace {Req Resp : Type} (c : Caller) (w : Wire Req Resp)
    (name : String) (request : Option Req) (want : Bool) :
    (c.doCall w name request want).2 =
      match marshalBody w.marshal request with
      | .error _ => []
      | .ok body => [c.httpRequestFor name request body] := by
  unfold Caller.doCall
  cases hm : marshalBody w.marshal request with
  | error e => rfl
  | ok body =>
    dsimp only
    cases hh : w.httpDo (c.httpRequestFor name request body) with
    | error e => rfl
    | ok res =>
      dsimp only
      cases hd : w.decodeOuter res.Body with
      | error e => rfl
      | ok outer =>
        dsimp only
        cases ho : outer.Ok with
        | false =>
          by_cases hl : outer.Description.length = 0 <;>
            simp [hl]
        | true =>
          cases hw : want with
          | false => simp
          | true =>
            cases hu : w.unmarshal outer.Result <;> simp [hu]

/-- Claim C1 (amended): after a successful batch is processed, the
request's `Offset` equals `max(previous cursor, highest identifier + 1)`
— and an empty batch leaves it unchanged — provided every identifier in
the batch is a valid `int64` strictly below `2 ^ 63 - 1`, so that the
`int64` increment `upd.ID + 1` cannot wrap. At identifier `2 ^ 63 - 1`
the increment wraps to `-(2 ^ 63)` and the equation fails (see the
counterexample). -/
theorem C1_offset_advances_to_max (b : Bot) (req : GetUpdates)
    (upds : List Update)
    (h : ∀ u ∈ upds, -(2 ^ 63) ≤ u.ID ∧ u.ID < 2 ^ 63 - 1) :
    ((pollIteration b req (.success upds)).1).Offset =
      match upds with
      | [] => req.Offset
      | u :: rest =>
        max req.Offset ((rest.foldl (fun m v => max m v.ID) u.ID) + 1) := by
  have hbase : ((pollIteration b req (.success upds)).1).Offset =
      processBatch req.Offset upds := rfl
  rw [hbase, processBatch_eq_foldl upds req.Offset h]
  cases upds with
  | nil => rfl
  | cons u rest =>
    have hmap : (u :: rest).map (fun v => v.ID + 1) =
        ((u.ID :: rest.map Update.ID).map (fun i => i + 1)) := by
      simp [List.map_map]
    rw [hmap, foldl_max_map_succ (rest.map Update.ID) req.Offset u.ID,
      List.foldl_map]

/-- On the spec's worked scenario — batch with identifiers 5 and 7,
cursor 0 — the cursor after the batch is 8. -/
theorem C1_offset_advances_to_max_witness :
    ((pollIteration bot0 req0 (.success [u5, u7])).1).Offset = 8 := by
  have h := C1_offset_advances_to_max bot0 req0 [u5, u7] (by decide)
  exact h.trans (by decide)

/-- Claim C1 as stated fails at the largest `int64` identifier: with
cursor 0 and a batch whose only identifier is `2 ^ 63 - 1`, the code
leaves `Offset = -(2 ^ 63)`, not `max(0, (2 ^ 63 - 1) + 1)`. -/
theorem C1_offset_advances_to_max_counterexample :
    ((pollIteration bot0 req0 (.success [uMax])).1).Offset ≠
      max req0.Offset (uMax.ID + 1) := by decide

/-- Claim C2: every long-poll call of a session carries the default
timeout (60) when the configured `Timeout` was unset or non-positive,
and the configured value unchanged when it was positive. -/
theorem C2_timeout_normalized_for_every_call (b : Bot) (req : GetUpdates)
    (inputs : List PollResult) :
    (b.PollUpdates req inputs).2.filterMap timeoutOfCall =
      List.replicate inputs.length
        (if req.Timeout ≤ 0 then DefaultPollTimeout else req.Timeout) := by
  unfold Bot.PollUpdates
  rw [pollRun_timeouts]
  unfold normalizePollTimeout
  by_cases h : req.Timeout ≤ 0 <;> simp [h]

/-- Claim C3: the updates a session emits on the update channel are
exactly the concatenation, in call order, of the batches of its
successful calls — each update once, in batch order, none dropped,
duplicated or reordered across batches. -/
theorem C3_updates_emitted_in_order_exactly_once (b : Bot)
    (req : GetUpdates) (inputs : List PollResult) :
    emittedUpdates (b.PollUpdates req inputs).2 =
      (successBatches inputs).flatten := by
  unfold Bot.PollUpdates
  exact pollRun_updates b inputs _

/-- Claim C4: once a call has a decoded envelope — for the wire behaviour
fixed by the three hypotheses — a false success flag yields the
remote-declared `Error` with the response's HTTP status and the
envelope's description (`"undefined error"` when that description is
empty) and the result is unchanged under any replacement of the
result-unmarshalling oracle, i.e. the raw payload is not interpreted; a
true flag with a requested response shape succeeds exactly when the raw
result unmarshals into that shape, failing with the decode error
otherwise; and a true flag with no requested shape succeeds without
interpreting the result. -/
theorem C4_envelope_error_handling {Req Resp : Type} (c : Caller)
    (w : Wire Req Resp) (name : String) (request : Option Req) (want : Bool)
    (body : Option String) (res : HTTPResponse) (outer : outerResponse)
    (h1 : marshalBody w.marshal request = .ok body)
    (h2 : w.httpDo (c.httpRequestFor name request body) = .ok res)
    (h3 : w.decodeOuter res.Body = .ok outer) :
    (outer.Ok = false →
      (c.doCall w name request want).1 =
        .error (.apiErr ⟨res.StatusCode,
          if outer.Description.length = 0 then "undefined error"
          else outer.Description⟩) ∧
      ∀ f, (c.doCall (w.withUnmarshal f) name request want).1 =
        (c.doCall w name request want).1) ∧
    (outer.Ok = true → want = true →
      (c.doCall w name request want).1 =
        match w.unmarshal outer.Result with
        | .error e => .error (.unmarshalErr e)
        | .ok v => .ok (some v)) ∧
    (outer.Ok = true → want = false →
      (c.doCall w name request want).1 = .ok none ∧
      ∀ f, (c.doCall (w.withUnmarshal f) name request want).1 =
        (c.doCall w name request want).1) := by
  have hmain := doCall_of_envelope c w name request want body res outer h1 h2 h3
  refine ⟨fun ho => ⟨?_, fun f => ?_⟩, fun ho hw => ?_, fun ho hw => ⟨?_, fun f => ?_⟩⟩
  · rw [hmain]; simp [ho]
  · have halt := doCall_of_envelope c (w.withUnmarshal f) name request want body
      res outer h1 h2 h3
    rw [hmain, halt]; simp [ho]
  · rw [hmain]; simp [ho, hw]
  · rw [hmain]; simp [ho, hw]
  · have halt := doCall_of_envelope c (w.withUnmarshal f) name request want body
      res outer h1 h2 h3
    rw [hmain, halt]; simp [ho, hw]

/-- On a concrete wire whose remote declares failure with an empty
description on HTTP status 404, the call fails with the substituted
`"undefined error"` description and status 404. -/
theorem C4_envelope_error_handling_witness :
    ((NewCaller EndpointURL "TOKEN").doCall w0 "getMe" (some ()) true).1 =
      .error (.apiErr { HTTPCode := 404, Description := "undefined error" }) := by
  have h := (C4_envelope_error_handling (NewCaller EndpointURL "TOKEN") w0
    "getMe" (some ()) true (some "null") { StatusCode := 404, Body := "B" }
    { Ok := false, Result := "r", Description := "" } rfl rfl rfl).1 rfl
  exact h.1.trans rfl

/-- Claim C5: any run of `n` consecutive failed calls leaves the request
(and so the cursor) untouched, emits — per failure — the call, then the
error on the error channel, then the fixed backoff sleep, and then
continues with the remainder of the session: failures never terminate
the loop, with no retry ceiling and the same backoff every time. -/
theorem C5_failure_backoff_retry_indefinitely (b : Bot) (req : GetUpdates)
    (e : String) (rest : List PollResult) (n : Nat) :
    pollRun b req (List.replicate n (.failure e) ++ rest) =
      ((pollRun b req rest).1,
       (List.replicate n [Event.callIssued req.Offset req.Timeout,
          Event.emitError e, Event.sleep b.BackoffPeriod]).flatten
         ++ (pollRun b req rest).2) := by
  induction n with
  | zero => simp
  | succ m ih =>
    rw [List.replicate_succ, List.cons_append]
    have hstep : pollRun b req
        (PollResult.failure e :: (List.replicate m (PollResult.failure e) ++ rest)) =
        ((pollRun b req (List.replicate m (PollResult.failure e) ++ rest)).1,
         [Event.callIssued req.Offset req.Timeout, Event.emitError e,
          Event.sleep b.BackoffPeriod] ++
           (pollRun b req (List.replicate m (PollResult.failure e) ++ rest)).2) := rfl
    rw [hstep, ih, List.replicate_succ, List.flatten_cons, List.append_assoc]

/-- Claim C6: a session's trace consists of a prefix containing no
channel-close event followed by exactly one channel-close event at the
very end — the channels are closed exactly once, upon observing
cancellation, and nothing (no emission, no call, no sleep) happens
afterwards. -/
theorem C6_cancellation_closes_channels_once (b : Bot) (req : GetUpdates)
    (inputs : List PollResult) :
    ∃ pre, (b.PollUpdates req inputs).2 = pre ++ [Event.closeChannels] ∧
      pre.countP Event.isClose = 0 := by
  unfold Bot.PollUpdates
  exact pollRun_close_last b inputs _

/-- Claim C7 (amended): within one session the cursor is monotonically
non-decreasing — the offset after any run is at least the starting
offset — provided every batch identifier is a valid `int64` strictly
below `2 ^ 63 - 1`; at identifier `2 ^ 63 - 1` the increment wraps to
`-(2 ^ 63)` and the cursor decreases (see the counterexample). -/
theorem C7_offset_monotone (b : Bot) (req : GetUpdates)
    (inputs : List PollResult)
    (h : ∀ r ∈ inputs, ∀ u ∈ r.updates, -(2 ^ 63) ≤ u.ID ∧ u.ID < 2 ^ 63 - 1) :
    req.Offset ≤ ((pollRun b req inputs).1).Offset :=
  pollRun_offset_mono b inputs req h

/-- On a session with one successful batch of identifiers 5 and 7
starting from cursor 0, the cursor does not decrease. -/
theorem C7_offset_monotone_witness :
    req0.Offset ≤ ((pollRun bot0 req0 [.success [u5, u7]]).1).Offset :=
  C7_offset_monotone bot0 req0 [.success [u5, u7]] (by decide)

/-- Claim C7 as stated fails at the largest `int64` identifier: a batch
whose only identifier is `2 ^ 63 - 1` drives the cursor from 0 down to
`-(2 ^ 63)`. -/
theorem C7_offset_monotone_counterexample :
    ((pollRun bot0 req0 [.success [uMax]]).1).Offset < req0.Offset := by decide

/-- Claim C8: a call with no request payload issues exactly one HTTP
request — GET, no body, no content type, URL the endpoint followed by
the token, a slash and the method name; a call with a payload whose
marshalling yields `buf` issues exactly one POST request with body `buf`
and content type `application/json` at the same URL. -/
theorem C8_http_request_shape {Req Resp : Type} (endpoint token name : String)
    (w : Wire Req Resp) (r : Req) (want1 want2 : Bool) :
    ((NewCaller endpoint token).doCall w name none want1).2 =
      [{ Method := "GET", URL := endpoint ++ token ++ "/" ++ name,
         Body := none, ContentType := none }] ∧
    ∀ buf, w.marshal r = .ok buf →
      ((NewCaller endpoint token).doCall w name (some r) want2).2 =
        [{ Method := "POST", URL := endpoint ++ token ++ "/" ++ name,
           Body := some buf, ContentType := some "application/json" }] := by
  constructor
  · rw [doCall_trace]
    rfl
  · intro buf hbuf
    rw [doCall_trace]
    have hm : marshalBody w.marshal (some r) = .ok (some buf) := by
      show Except.map some (w.marshal r) = Except.ok (some buf)
      rw [hbuf]
      rfl
    rw [hm]
    rfl

/-- On a concrete wire marshalling the payload to `"null"`, a call with
a payload issues the expected single POST request. -/
theorem C8_http_request_shape_witness :
    ((NewCaller EndpointURL "TOKEN").doCall w0 "sendMessage" (some ()) true).2 =
      [{ Method := "POST", URL := EndpointURL ++ "TOKEN" ++ "/" ++ "sendMessage",
         Body := some "null", ContentType := some "application/json" }] :=
  (C8_http_request_shape EndpointURL "TOKEN" "sendMessage" w0 () true true).2
    "null" rfl

/-- Claim C9: constructing a bot from a token issues exactly one HTTP
request — the GET for the `getMe` identity lookup at the endpoint URL —
and the constructor returns an error exactly when that verification call
returns one (the returned error is the call's error). -/
theorem C9_newbot_single_verification_call (token : String)
    (w : Wire Unit User) :
    (NewBot token w).2 =
      [{ Method := "GET", URL := EndpointURL ++ token ++ "/" ++ "getMe",
         Body := none, ContentType := none }] ∧
    (NewBot token w).1.2 =
      exceptErr ((NewCaller EndpointURL token).doCall w "getMe" none true).1 := by
  have htr := doCall_trace (NewCaller EndpointURL token) w "getMe"
    (none : Option Unit) true
  dsimp only [NewBot, Bot.GetMe]
  cases h : (NewCaller EndpointURL token).doCall w "getMe" none true with
  | mk fst snd =>
    rw [h] at htr
    cases fst with
    | error e => exact ⟨htr.trans rfl, rfl⟩
    | ok v => exact ⟨htr.trans rfl, rfl⟩

/-- Claim C10: `Update.Type` is total and deterministic — on every update
value it returns the kind tag of the first populated slot in the fixed
order message, edited message, channel post, edited channel post, inline
query, chosen inline result, callback query, and the empty string when
no slot is populated. -/
theorem C10_update_type_first_populated_slot (u : Update) :
    u.getType = (((kindSlots u).find? (fun p => p.1)).map Prod.snd).getD "" := by
  rcases u with ⟨id, m, em, cp, ecp, iq, cir, cq⟩
  cases m <;> cases em <;> cases cp <;> cases ecp <;> cases iq <;> cases cir <;>
    cases cq <;> rfl

end Telebot
